import Mathlib

/-
Verification of the pluggable NLP pipeline orchestration core
(src/modules/core.py), together with the initialization behaviour of the
grammar and completion modules (src/modules/grammar.py,
src/modules/completion.py).

Modelling choices:
  * A Python dict is an association list with Python dict semantics:
    lookup returns the binding of the key, assignment replaces the value
    in place when the key is present and appends otherwise, and deletion
    removes the binding.
  * Python runtime values that the orchestration core stores and forwards
    are an inductive PyValue; the core never inspects result contents.
  * A raised Python exception is a PyExc carrying the exception class name
    and the message (the value of str applied to the exception).
  * A processor module is a record of pure behaviours: its name, its
    supported language list, and the outcome of initialize and process as
    functions into Except (the module object state mutated by the real
    initialize is owned by the module and invisible to the pipeline).
  * Pipeline operations additionally report the post state and, for
    lifecycle and execution operations, the list of module names whose
    initialize or process call was actually made, so that facts such as
    one module not being invoked are statable.
-/

/-- Python runtime values as far as the orchestration core observes them. -/
inductive PyValue : Type where
  | none : PyValue
  | str : String → PyValue
  | int : Int → PyValue
  | bool : Bool → PyValue
  | dict : List (String × PyValue) → PyValue
  | list : List PyValue → PyValue

/-- A raised Python exception: the exception class name and str of it. -/
structure PyExc where
  kind : String
  msg : String
deriving DecidableEq

/-- Python dict lookup: the binding of the key, if present. -/
def dget {α : Type} : List (String × α) → String → Option α
  | [], _ => Option.none
  | (k, v) :: rest, key => if k = key then some v else dget rest key

/-- Python dict assignment d[key] = v: replace the value in place when the
key is present, append the binding otherwise. -/
def dset {α : Type} : List (String × α) → String → α → List (String × α)
  | [], key, v => [(key, v)]
  | (k, w) :: rest, key, v =>
    if k = key then (key, v) :: rest else (k, w) :: dset rest key v

/-- Python dict deletion del d[key]. -/
def ddel {α : Type} : List (String × α) → String → List (String × α)
  | [], _ => []
  | (k, w) :: rest, key => if k = key then rest else (k, w) :: ddel rest key

/-- The keys of a dict, in insertion order. -/
def keys {α : Type} (d : List (String × α)) : List String :=
  d.map Prod.fst

/-- Python truthiness of a value, as used by conditions such as
the completion module testing its api key. -/
def pyTruthy : PyValue → Bool
  | PyValue.none => false
  | PyValue.str s => !(s == "")
  | PyValue.int n => !(n == 0)
  | PyValue.bool b => b
  | PyValue.dict d => !d.isEmpty
  | PyValue.list l => !l.isEmpty

/-- Keyword arguments of a call (Python kwargs). -/
abbrev Kwargs := List (String × PyValue)

/-- The configuration mapping handed to one module. -/
abbrev Config := List (String × PyValue)

/-- The pipeline level configuration: module name to module config. -/
abbrev ConfigMap := List (String × Config)

/-- A processor module as the pipeline observes it: the abstract contract
of core.py (name, supported_languages, initialize, process). -/
structure ProcessorModule where
  name : String
  supported_languages : List String := ["en-US"]
  init : Config → Except PyExc Unit
  process : String → Kwargs → Except PyExc PyValue

/-- can_process of core.py: membership of the language in
supported_languages; Python membership of a non string value in a list of
strings is false. -/
def ProcessorModule.can_process (m : ProcessorModule) (language : PyValue) : Bool :=
  match language with
  | PyValue.str s => m.supported_languages.contains s
  | _ => false

inductive LogLevel : Type where
  | debug
  | info
  | warning
  | error
deriving DecidableEq

/-- An emitted logging event: its level and message. -/
structure LogEvent where
  level : LogLevel
  message : String

/-- The pipeline state of core.py: the module registry, the captured
configuration, and the initialized flag. -/
structure Pipeline where
  modules : List (String × ProcessorModule)
  config : ConfigMap
  initialized : Bool

/-- A freshly constructed pipeline. -/
def Pipeline.empty : Pipeline :=
  { modules := [], config := [], initialized := false }

/-- Pipeline.register of core.py: warn when the name is already bound,
then overwrite the binding. -/
def Pipeline.register (p : Pipeline) (module : ProcessorModule) :
    Pipeline × List LogEvent :=
  let warn : List LogEvent :=
    if (dget p.modules module.name).isSome = true then
      [⟨LogLevel.warning,
        "Module " ++ module.name ++ " is already registered. Overwriting."⟩]
    else []
  ({ p with modules := dset p.modules module.name module },
   warn ++ [⟨LogLevel.info, "Registered module: " ++ module.name⟩])

/-- Pipeline.unregister of core.py: remove the binding when present and
report whether removal happened; never raises. -/
def Pipeline.unregister (p : Pipeline) (module_name : String) :
    Pipeline × Bool :=
  if (dget p.modules module_name).isSome = true then
    ({ p with modules := ddel p.modules module_name }, true)
  else (p, false)

/-- The RuntimeError raised by initialize_all when one module initialize
fails; the spec calls it PipelineInitializationError. -/
def PipelineInitializationError (name : String) : PyExc :=
  ⟨"RuntimeError", "Module initialization failed: " ++ name⟩

/-- The loop body of initialize_all: initialize each registered module in
registry order with its configuration; the first failure is wrapped as a
RuntimeError naming the module and stops the loop. Also returns the names
whose initialize was invoked. -/
def initLoop (cfg : ConfigMap) :
    List (String × ProcessorModule) → Except PyExc Unit × List String
  | [] => (Except.ok (), [])
  | (name, m) :: rest =>
    match m.init ((dget cfg name).getD []) with
    | Except.ok _ =>
      let r := initLoop cfg rest
      (r.1, name :: r.2)
    | Except.error _ =>
      (Except.error (PipelineInitializationError name), [name])

/-- Outcome of initialize_all: the raised or normal result, the pipeline
post state, and the module names whose initialize was invoked. -/
structure InitOutcome where
  result : Except PyExc Unit
  state : Pipeline
  invoked : List String

/-- Pipeline.initialize_all of core.py: capture the configuration, run the
initialization loop, and set the initialized flag only when every module
succeeded. On failure the flag is left as it was; the captured
configuration is already replaced. -/
def Pipeline.init_all (p : Pipeline) (config : Option ConfigMap) :
    InitOutcome :=
  let cfg := config.getD []
  let p1 : Pipeline := { p with config := cfg }
  match initLoop cfg p1.modules with
  | (Except.ok _, tr) => ⟨Except.ok (), { p1 with initialized := true }, tr⟩
  | (Except.error e, tr) => ⟨Except.error e, p1, tr⟩

/-- The RuntimeError raised by execution operations on a pipeline whose
initialized flag is false; the spec calls it NotInitializedError. -/
def NotInitializedError : PyExc :=
  ⟨"RuntimeError", "Pipeline not initialized. Call initialize_all() first."⟩

/-- The ValueError raised by run_module for an unregistered name; the spec
calls it ModuleNotFoundError. -/
def ModuleNotFoundError (name : String) : PyExc :=
  ⟨"ValueError", "Module " ++ name ++ " not found in pipeline"⟩

/-- kwargs.get of the language option, defaulting to en-US. -/
def kwargsLanguage (kwargs : Kwargs) : PyValue :=
  (dget kwargs "language").getD (PyValue.str "en-US")

/-- Outcome of an execution operation: the raised or returned result, the
pipeline post state, and the module names whose process was invoked. -/
structure RunOutcome (α : Type) where
  result : Except PyExc α
  state : Pipeline
  invoked : List String

/-- Pipeline.run_module of core.py: guard on the initialized flag, look the
module up, gate on can_process (returning the Python None sentinel on a
language mismatch), otherwise call process; a process failure is logged
and re-raised unchanged. -/
def Pipeline.run_module (p : Pipeline) (module_name : String) (text : String)
    (kwargs : Kwargs) : RunOutcome PyValue :=
  if p.initialized = false then
    ⟨Except.error NotInitializedError, p, []⟩
  else
    match dget p.modules module_name with
    | Option.none => ⟨Except.error (ModuleNotFoundError module_name), p, []⟩
    | some m =>
      if m.can_process (kwargsLanguage kwargs) = false then
        ⟨Except.ok PyValue.none, p, []⟩
      else
        ⟨m.process text kwargs, p, [module_name]⟩

/-- The per module fault boundary of run_all: the process result on
success, and the error marker dict built from str of the exception on
failure. -/
def faultBoundary (m : ProcessorModule) (text : String) (kwargs : Kwargs) :
    PyValue :=
  match m.process text kwargs with
  | Except.ok v => v
  | Except.error e => PyValue.dict [("error", PyValue.str e.msg)]

/-- The fan out loop of run_all: skip incapable modules, otherwise store
the fault boundary outcome under the module name; accumulates the result
dict and the names whose process was invoked. -/
def runAllLoop (text : String) (kwargs : Kwargs) (language : PyValue) :
    List (String × ProcessorModule) → List (String × PyValue) →
    List String → List (String × PyValue) × List String
  | [], results, invoked => (results, invoked)
  | (name, m) :: rest, results, invoked =>
    if m.can_process language = false then
      runAllLoop text kwargs language rest results invoked
    else
      runAllLoop text kwargs language rest
        (dset results name (faultBoundary m text kwargs))
        (invoked ++ [name])

/-- Pipeline.run_all of core.py: guard on the initialized flag, then fan
out over the registry. -/
def Pipeline.run_all (p : Pipeline) (text : String) (kwargs : Kwargs) :
    RunOutcome (List (String × PyValue)) :=
  if p.initialized = false then
    ⟨Except.error NotInitializedError, p, []⟩
  else
    let r := runAllLoop text kwargs (kwargsLanguage kwargs) p.modules [] []
    ⟨Except.ok r.1, p, r.2⟩

/-- The result dict run_all builds, described recursively from an empty
accumulator: one entry, in registry order, for each capable module. -/
def collectResults (text : String) (kwargs : Kwargs) (language : PyValue) :
    List (String × ProcessorModule) → List (String × PyValue)
  | [] => []
  | (name, m) :: rest =>
    if m.can_process language = false then
      collectResults text kwargs language rest
    else
      (name, faultBoundary m text kwargs) ::
        collectResults text kwargs language rest

/-- The names whose process run_all invokes, in registry order. -/
def collectInvoked (language : PyValue) :
    List (String × ProcessorModule) → List String
  | [] => []
  | (name, m) :: rest =>
    if m.can_process language = false then collectInvoked language rest
    else name :: collectInvoked language rest

/-- The language list of the grammar module (grammar.py). -/
def grammarSupportedLanguages : List String :=
  ["en-US", "en-GB", "fr-FR", "de-DE", "es-ES", "pt-PT"]

/-- The state the grammar module holds after its init has run: the chosen
language, the server url, and the LanguageTool client handle when the
connection was established. -/
structure GrammarState where
  language : String
  server_url : String
  tool : Option Nat
deriving DecidableEq

/-- The language grammar.py initialize reads from its configuration: a
configured value that is not a supported language string (also a non
string value, which Python list membership rejects) falls back to
en-US. -/
def grammarLanguage (config : Config) : String :=
  match (dget config "language").getD (PyValue.str "en-US") with
  | PyValue.str s => if grammarSupportedLanguages.contains s then s else "en-US"
  | _ => "en-US"

/-- The server url the grammar module reads from its configuration. -/
def grammarServerUrl (config : Config) : String :=
  match (dget config "server_url").getD (PyValue.str "http://localhost:8081") with
  | PyValue.str s => s
  | _ => "http://localhost:8081"

/-- GrammarChecker initialize of grammar.py, with the external
LanguageTool constructor abstracted as the connect argument (language,
server url). The source wraps the connection attempt in a try block whose
except clause logs and sets the tool attribute to None, so this function
is total: it returns a state and can never raise; a non string configured
server url is collapsed to the default since only its role as an address
matters. -/
def grammarInit (connect : String → String → Except PyExc Nat)
    (config : Config) : GrammarState :=
  match connect (grammarLanguage config) (grammarServerUrl config) with
  | Except.ok t =>
    ⟨grammarLanguage config, grammarServerUrl config, some t⟩
  | Except.error _ =>
    ⟨grammarLanguage config, grammarServerUrl config, Option.none⟩

/-- The state the completion module holds after a successful init. -/
structure CompletionState where
  provider : String
  client : Option Nat
  model : Option Nat
  tokenizer : Option Nat
deriving DecidableEq

/-- The external collaborators of the completion module init: the
environment api key, the library imports, the client constructor and the
model loaders, each able to raise. -/
structure CompletionExternals where
  envApiKey : Option PyValue
  openaiImport : Except PyExc Unit
  mkClient : String → PyValue → Except PyExc Nat
  hfImport : Except PyExc Unit
  loadTokenizer : String → Except PyExc Nat
  loadModel : String → Except PyExc Nat

/-- The except clauses of completion.py initialize: an ImportError is
re-raised unchanged, any other exception is wrapped as a RuntimeError
whose message embeds str of the cause. -/
def completionWrap (e : PyExc) : PyExc :=
  if e.kind = "ImportError" then e
  else ⟨"RuntimeError", "Could not initialize text completion: " ++ e.msg⟩

/-- The try block body of completion.py initialize: branch on the
provider; the nvidia branch imports openai, requires a truthy api key
(raising ValueError otherwise) and builds the client; the huggingface
branch imports transformers and loads tokenizer and model; any other
provider raises ValueError. -/
def completionBody (ext : CompletionExternals) (provider api_key : PyValue)
    (base_url model_name : String) : Except PyExc CompletionState :=
  match provider with
  | PyValue.str "nvidia" =>
    match ext.openaiImport with
    | Except.error e => Except.error e
    | Except.ok _ =>
      if pyTruthy api_key = false then
        Except.error ⟨"ValueError", "Nvidia API key is required"⟩
      else
        match ext.mkClient base_url api_key with
        | Except.error e => Except.error e
        | Except.ok c => Except.ok ⟨"nvidia", some c, Option.none, Option.none⟩
  | PyValue.str "huggingface" =>
    match ext.hfImport with
    | Except.error e => Except.error e
    | Except.ok _ =>
      match ext.loadTokenizer model_name with
      | Except.error e => Except.error e
      | Except.ok tok =>
        match ext.loadModel model_name with
        | Except.error e => Except.error e
        | Except.ok mdl => Except.ok ⟨"huggingface", Option.none, some mdl, some tok⟩
  | _ => Except.error ⟨"ValueError", "Unknown provider"⟩

/-- TextCompletion initialize of completion.py: read the options with
their defaults (the api key falling back to the environment), run the try
block body, and map a raised exception through the except clauses. A non
string configured model name or base url is collapsed to its default here
since only its role as an identifier matters. -/
def completionInit (ext : CompletionExternals) (config : Config) :
    Except PyExc CompletionState :=
  let provider := (dget config "provider").getD (PyValue.str "nvidia")
  let api_key :=
    (dget config "api_key").getD (ext.envApiKey.getD PyValue.none)
  let model_name : String :=
    match dget config "model_name" with
    | some (PyValue.str s) => s
    | _ => "nv-mistralai/mistral-nemo-12b-instruct"
  let base_url : String :=
    match dget config "base_url" with
    | some (PyValue.str s) => s
    | _ => "https://integrate.api.nvidia.com/v1"
  match completionBody ext provider api_key base_url model_name with
  | Except.ok st => Except.ok st
  | Except.error e => Except.error (completionWrap e)

/-- A test module supporting only en-US whose process always succeeds. -/
def modA : ProcessorModule :=
  { name := "a"
    supported_languages := ["en-US"]
    init := fun _ => Except.ok ()
    process := fun text _ => Except.ok (PyValue.str ("A:" ++ text)) }

/-- A test module supporting only fr-FR whose process always succeeds. -/
def modFr : ProcessorModule :=
  { name := "b"
    supported_languages := ["fr-FR"]
    init := fun _ => Except.ok ()
    process := fun text _ => Except.ok (PyValue.str ("B:" ++ text)) }

/-- A test module supporting en-US whose process always raises. -/
def modBoom : ProcessorModule :=
  { name := "x"
    supported_languages := ["en-US"]
    init := fun _ => Except.ok ()
    process := fun _ _ => Except.error ⟨"ProcessingError", "boom"⟩ }

/-- A test module whose init always raises. -/
def modBadInit (nm : String) : ProcessorModule :=
  { name := nm
    supported_languages := ["en-US"]
    init := fun _ => Except.error ⟨"Exception", "no resource"⟩
    process := fun _ _ => Except.ok PyValue.none }

/-- An already initialized pipeline holding the three test modules. -/
def testPipe : Pipeline :=
  { modules := [("a", modA), ("x", modBoom), ("b", modFr)]
    config := []
    initialized := true }

/-- A pipeline, built through the public operations, that completed a
successful startup before a failing module was registered. -/
def staleInitPipe : Pipeline :=
  ((((Pipeline.empty.register modA).1.init_all Option.none).state.register
      (modBadInit "b")).1)

/-- A connect function standing for a LanguageTool server that cannot be
reached. -/
def failingConnect : String → String → Except PyExc Nat :=
  fun _ _ => Except.error ⟨"ConnectionError", "LanguageTool server unreachable"⟩

/-- Completion externals for a run with no api key anywhere and all
imports available. -/
def noKeyExternals : CompletionExternals :=
  { envApiKey := Option.none
    openaiImport := Except.ok ()
    mkClient := fun _ _ => Except.ok 0
    hfImport := Except.ok ()
    loadTokenizer := fun _ => Except.ok 0
    loadModel := fun _ => Except.ok 0 }

/-- A pipeline holding one module that was never initialized. -/
def uninitPipe : Pipeline :=
  (Pipeline.empty.register modA).1

/-- A pipeline whose second module fails to initialize while a third one
follows it in registry order. -/
def badInitPipe : Pipeline :=
  { modules := [("a", modA), ("b", modBadInit "b"), ("x", modBoom)]
    config := []
    initialized := false }

/-- A second module carrying the name a, used to overwrite modA. -/
def modA2 : ProcessorModule :=
  { name := "a"
    supported_languages := ["en-GB"]
    init := fun _ => Except.ok ()
    process := fun text _ => Except.ok (PyValue.str ("A2:" ++ text)) }

theorem keys_cons {α : Type} (k : String) (v : α) (d : List (String × α)) :
    keys ((k, v) :: d) = k :: keys d := rfl

theorem dget_dset_self {α : Type} (d : List (String × α)) (k : String) (v : α) :
    dget (dset d k v) k = some v := by
  induction d with
  | nil => simp [dset, dget]
  | cons hd tl ih =>
    obtain ⟨k0, w⟩ := hd
    by_cases h : k0 = k
    · simp [dset, h, dget]
    · simp [dset, h, dget, ih]

theorem dget_dset_ne {α : Type} (d : List (String × α)) (k q : String) (v : α)
    (h : q ≠ k) : dget (dset d k v) q = dget d q := by
  induction d with
  | nil => simp [dset, dget, Ne.symm h]
  | cons hd tl ih =>
    obtain ⟨k0, w⟩ := hd
    by_cases h0 : k0 = k
    · subst h0
      simp [dset, dget, Ne.symm h]
    · by_cases hq : k0 = q
      · simp only [dset, if_neg h0, dget, if_pos hq]
      · simp only [dset, if_neg h0, dget, if_neg hq, ih]

theorem dget_eq_none_of_not_mem {α : Type} (d : List (String × α)) (q : String)
    (h : q ∉ keys d) : dget d q = Option.none := by
  induction d with
  | nil => rfl
  | cons hd tl ih =>
    obtain ⟨k0, w⟩ := hd
    rw [keys_cons, List.mem_cons, not_or] at h
    simp [dget, Ne.symm h.1, ih h.2]

theorem dset_fresh {α : Type} (d : List (String × α)) (k : String) (v : α)
    (h : dget d k = Option.none) : dset d k v = d ++ [(k, v)] := by
  induction d with
  | nil => rfl
  | cons hd tl ih =>
    obtain ⟨k0, w⟩ := hd
    by_cases h0 : k0 = k
    · rw [dget, if_pos h0] at h
      exact absurd h (by simp)
    · rw [dget, if_neg h0] at h
      simp [dset, h0, ih h]

theorem mem_keys_dset {α : Type} (d : List (String × α)) (k : String) (v : α)
    (q : String) (h : q ∈ keys (dset d k v)) : q ∈ keys d ∨ q = k := by
  induction d with
  | nil =>
    simp [dset, keys] at h
    exact Or.inr h
  | cons hd tl ih =>
    obtain ⟨k0, w⟩ := hd
    by_cases h0 : k0 = k
    · rw [dset, if_pos h0, keys_cons] at h
      rcases List.mem_cons.mp h with hq | hq
      · exact Or.inr hq
      · exact Or.inl (by rw [keys_cons]; exact List.mem_cons_of_mem _ hq)
    · rw [dset, if_neg h0, keys_cons] at h
      rcases List.mem_cons.mp h with hq | hq
      · exact Or.inl (by rw [keys_cons]; exact List.mem_cons.mpr (Or.inl hq))
      · rcases ih hq with hq2 | hq2
        · exact Or.inl (by rw [keys_cons]; exact List.mem_cons_of_mem _ hq2)
        · exact Or.inr hq2

theorem nodup_keys_dset {α : Type} (d : List (String × α)) (k : String) (v : α)
    (h : (keys d).Nodup) : (keys (dset d k v)).Nodup := by
  induction d with
  | nil => simp [dset, keys]
  | cons hd tl ih =>
    obtain ⟨k0, w⟩ := hd
    rw [keys_cons, List.nodup_cons] at h
    by_cases h0 : k0 = k
    · rw [dset, if_pos h0, keys_cons, List.nodup_cons]
      exact ⟨h0 ▸ h.1, h.2⟩
    · rw [dset, if_neg h0, keys_cons, List.nodup_cons]
      refine ⟨fun hmem => ?_, ih h.2⟩
      rcases mem_keys_dset tl k v k0 hmem with hm | hm
      · exact h.1 hm
      · exact h0 hm

theorem dget_ddel_self {α : Type} (d : List (String × α)) (k : String)
    (h : (keys d).Nodup) : dget (ddel d k) k = Option.none := by
  induction d with
  | nil => rfl
  | cons hd tl ih =>
    obtain ⟨k0, w⟩ := hd
    rw [keys_cons, List.nodup_cons] at h
    by_cases h0 : k0 = k
    · rw [ddel, if_pos h0]
      exact dget_eq_none_of_not_mem tl k (h0 ▸ h.1)
    · rw [ddel, if_neg h0, dget, if_neg h0]
      exact ih h.2

theorem dget_ddel_ne {α : Type} (d : List (String × α)) (k q : String)
    (h : q ≠ k) : dget (ddel d k) q = dget d q := by
  induction d with
  | nil => rfl
  | cons hd tl ih =>
    obtain ⟨k0, w⟩ := hd
    by_cases h0 : k0 = k
    · rw [ddel, if_pos h0, dget, if_neg (h0 ▸ Ne.symm h)]
    · by_cases hq : k0 = q
      · rw [ddel, if_neg h0, dget, if_pos hq, dget, if_pos hq]
      · rw [ddel, if_neg h0, dget, if_neg hq, dget, if_neg hq, ih]

theorem runAllLoop_eq (text : String) (kwargs : Kwargs) (language : PyValue)
    (ms : List (String × ProcessorModule)) :
    ∀ (acc : List (String × PyValue)) (inv : List String),
    (∀ x ∈ ms, dget acc x.1 = Option.none) → (keys ms).Nodup →
    runAllLoop text kwargs language ms acc inv =
      (acc ++ collectResults text kwargs language ms,
       inv ++ collectInvoked language ms) := by
  induction ms with
  | nil =>
    intro acc inv _ _
    simp [runAllLoop, collectResults, collectInvoked]
  | cons hd tl ih =>
    intro acc inv hfresh hnd
    obtain ⟨name, m⟩ := hd
    rw [keys_cons, List.nodup_cons] at hnd
    by_cases hcan : m.can_process language = false
    · simp only [runAllLoop, if_pos hcan, collectResults, collectInvoked]
      exact ih acc inv (fun x hx => hfresh x (List.mem_cons_of_mem _ hx)) hnd.2
    · simp only [runAllLoop, if_neg hcan, collectResults, collectInvoked]
      have hfresh0 : dget acc name = Option.none :=
        hfresh (name, m) (List.mem_cons_self _ _)
      have hstep := ih (dset acc name (faultBoundary m text kwargs)) (inv ++ [name])
        (fun x hx => by
          have hxk : x.1 ≠ name := by
            intro hh
            exact hnd.1 (hh ▸ List.mem_map_of_mem Prod.fst hx)
          rw [dget_dset_ne _ _ _ _ hxk]
          exact hfresh x (List.mem_cons_of_mem _ hx))
        hnd.2
      rw [hstep, dset_fresh acc name _ hfresh0]
      simp

theorem run_all_characterization (p : Pipeline) (text : String) (kwargs : Kwargs)
    (hinit : p.initialized = true) (hnd : (keys p.modules).Nodup) :
    p.run_all text kwargs =
      ⟨Except.ok (collectResults text kwargs (kwargsLanguage kwargs) p.modules),
       p, collectInvoked (kwargsLanguage kwargs) p.modules⟩ := by
  have hloop := runAllLoop_eq text kwargs (kwargsLanguage kwargs) p.modules [] []
    (fun x _ => rfl) hnd
  rw [Pipeline.run_all, if_neg (by simp [hinit])]
  simp only [hloop, List.nil_append]

theorem dget_collectResults_not_mem (text : String) (kwargs : Kwargs)
    (language : PyValue) (ms : List (String × ProcessorModule)) (q : String)
    (h : q ∉ keys ms) :
    dget (collectResults text kwargs language ms) q = Option.none := by
  induction ms with
  | nil => rfl
  | cons hd tl ih =>
    obtain ⟨name, m⟩ := hd
    rw [keys_cons, List.mem_cons, not_or] at h
    by_cases hcan : m.can_process language = false
    · simp only [collectResults, if_pos hcan]
      exact ih h.2
    · simp only [collectResults, if_neg hcan, dget]
      rw [if_neg (show ¬ name = q from fun hh => h.1 hh.symm)]
      exact ih h.2

theorem dget_collectResults (text : String) (kwargs : Kwargs)
    (language : PyValue) (ms : List (String × ProcessorModule))
    (hnd : (keys ms).Nodup) (name : String) (m : ProcessorModule)
    (hm : (name, m) ∈ ms) :
    dget (collectResults text kwargs language ms) name =
      if m.can_process language = true then
        some (faultBoundary m text kwargs)
      else Option.none := by
  induction ms with
  | nil => cases hm
  | cons hd tl ih =>
    obtain ⟨n0, m0⟩ := hd
    rw [keys_cons, List.nodup_cons] at hnd
    rcases List.mem_cons.mp hm with heq | hmem
    · cases heq
      by_cases hcan : m.can_process language = false
      · simp only [collectResults, if_pos hcan]
        rw [dget_collectResults_not_mem text kwargs language tl name hnd.1,
          if_neg (by simp [hcan])]
      · have hc : m.can_process language = true := by
          cases hcb : m.can_process language
          · exact absurd hcb hcan
          · rfl
        simp [collectResults, if_neg hcan, dget, hc]
    · have hne : n0 ≠ name := by
        intro hh
        exact hnd.1 (hh ▸ List.mem_map_of_mem Prod.fst hmem)
      by_cases hcan0 : m0.can_process language = false
      · simp only [collectResults, if_pos hcan0]
        exact ih hnd.2 hmem
      · simp only [collectResults, if_neg hcan0, dget, if_neg hne]
        exact ih hnd.2 hmem

theorem keys_collectResults (text : String) (kwargs : Kwargs)
    (language : PyValue) (ms : List (String × ProcessorModule)) :
    keys (collectResults text kwargs language ms) =
      keys (ms.filter fun nm => nm.2.can_process language) := by
  induction ms with
  | nil => rfl
  | cons hd tl ih =>
    obtain ⟨name, m⟩ := hd
    cases hcb : m.can_process language with
    | false => simp [collectResults, hcb, List.filter_cons, ih]
    | true => simp [collectResults, hcb, List.filter_cons, keys_cons, ih]

theorem mem_collectInvoked (language : PyValue)
    (ms : List (String × ProcessorModule)) (name : String)
    (m : ProcessorModule) (hm : (name, m) ∈ ms)
    (hcan : m.can_process language = true) :
    name ∈ collectInvoked language ms := by
  induction ms with
  | nil => cases hm
  | cons hd tl ih =>
    obtain ⟨n0, m0⟩ := hd
    rcases List.mem_cons.mp hm with heq | hmem
    · cases heq
      simp [collectInvoked, hcan]
    · cases hcan0 : m0.can_process language with
      | false =>
        simp only [collectInvoked, hcan0]
        simpa using ih hmem
      | true =>
        simp only [collectInvoked, hcan0]
        simpa using List.mem_cons_of_mem n0 (ih hmem)

theorem initLoop_first_failure (cfg : ConfigMap)
    (pre post : List (String × ProcessorModule)) (name : String)
    (mbad : ProcessorModule)
    (hpre : ∀ x ∈ pre, x.2.init ((dget cfg x.1).getD []) = Except.ok ())
    (hbad : ∃ e, mbad.init ((dget cfg name).getD []) = Except.error e) :
    initLoop cfg (pre ++ (name, mbad) :: post) =
      (Except.error (PipelineInitializationError name), keys pre ++ [name]) := by
  induction pre with
  | nil =>
    obtain ⟨e, he⟩ := hbad
    simp [initLoop, he, keys]
  | cons hd tl ih =>
    obtain ⟨n0, m0⟩ := hd
    have h0 : m0.init ((dget cfg n0).getD []) = Except.ok () :=
      hpre (n0, m0) (List.mem_cons_self _ _)
    simp only [List.cons_append, initLoop, h0, List.append_eq]
    rw [ih (fun x hx => hpre x (List.mem_cons_of_mem _ hx))]
    simp [keys_cons]

/-- Claim C1: for every initialized pipeline (whose registry satisfies the
unique name invariant) and every input text, if a registered module whose
can_process of the request language is true raises during process, then
run_all catches the exception and maps that module name to the error
marker dict holding the exception message, while every other capable
registered module is still invoked and contributes its own fault boundary
outcome: one module failure never aborts the fan out. -/
theorem run_all_fault_isolation (p : Pipeline) (text : String) (kwargs : Kwargs)
    (hinit : p.initialized = true) (hnd : (keys p.modules).Nodup)
    (name : String) (m : ProcessorModule) (e : PyExc)
    (hm : (name, m) ∈ p.modules)
    (hcan : m.can_process (kwargsLanguage kwargs) = true)
    (herr : m.process text kwargs = Except.error e) :
    ∃ res, (p.run_all text kwargs).result = Except.ok res ∧
      dget res name = some (PyValue.dict [("error", PyValue.str e.msg)]) ∧
      (∀ n2 m2, (n2, m2) ∈ p.modules → n2 ≠ name →
        m2.can_process (kwargsLanguage kwargs) = true →
        n2 ∈ (p.run_all text kwargs).invoked ∧
        dget res n2 = some (faultBoundary m2 text kwargs)) := by
  refine ⟨collectResults text kwargs (kwargsLanguage kwargs) p.modules, ?_, ?_, ?_⟩
  · rw [run_all_characterization p text kwargs hinit hnd]
  · rw [dget_collectResults text kwargs _ p.modules hnd name m hm, if_pos hcan]
    simp [faultBoundary, herr]
  · intro n2 m2 hm2 _ hcan2
    constructor
    · rw [run_all_characterization p text kwargs hinit hnd]
      exact mem_collectInvoked _ p.modules n2 m2 hm2 hcan2
    · rw [dget_collectResults text kwargs _ p.modules hnd n2 m2 hm2, if_pos hcan2]

/-- Witness for run_all_fault_isolation at the pipeline holding modules a,
x and b, where x raises boom during process. -/
theorem run_all_fault_isolation_witness :
    testPipe.initialized = true ∧
    (∃ res, (testPipe.run_all "hello" []).result = Except.ok res ∧
      dget res "x" = some (PyValue.dict [("error", PyValue.str "boom")]) ∧
      (∀ n2 m2, (n2, m2) ∈ testPipe.modules → n2 ≠ "x" →
        m2.can_process (kwargsLanguage []) = true →
        n2 ∈ (testPipe.run_all "hello" []).invoked ∧
        dget res n2 = some (faultBoundary m2 "hello" []))) :=
  ⟨rfl, run_all_fault_isolation testPipe "hello" [] rfl (by decide) "x" modBoom
    ⟨"ProcessingError", "boom"⟩ (List.Mem.tail _ (List.Mem.head _)) rfl rfl⟩

/-- Claim C2: for every initialized pipeline, run_all iterates the
registered modules in registry order; a module whose can_process of the
request language is false is omitted entirely from the result mapping (no
error entry), and the mapping holds exactly one entry per registered
module that was not skipped, in registry order. -/
theorem run_all_language_gating (p : Pipeline) (text : String) (kwargs : Kwargs)
    (hinit : p.initialized = true) (hnd : (keys p.modules).Nodup) :
    ∃ res, (p.run_all text kwargs).result = Except.ok res ∧
      (∀ name m, (name, m) ∈ p.modules →
        m.can_process (kwargsLanguage kwargs) = false →
        dget res name = Option.none) ∧
      keys res = keys (p.modules.filter
        fun nm => nm.2.can_process (kwargsLanguage kwargs)) := by
  refine ⟨collectResults text kwargs (kwargsLanguage kwargs) p.modules, ?_, ?_, ?_⟩
  · rw [run_all_characterization p text kwargs hinit hnd]
  · intro name m hm hcan
    rw [dget_collectResults text kwargs _ p.modules hnd name m hm,
      if_neg (by simp [hcan])]
  · exact keys_collectResults text kwargs _ p.modules

/-- Witness for run_all_language_gating at the test pipeline with the
request language fr-FR, which only module b supports. -/
theorem run_all_language_gating_witness :
    testPipe.initialized = true ∧
    (∃ res,
      (testPipe.run_all "hello" [("language", PyValue.str "fr-FR")]).result =
        Except.ok res ∧
      (∀ name m, (name, m) ∈ testPipe.modules →
        m.can_process (kwargsLanguage [("language", PyValue.str "fr-FR")]) = false →
        dget res name = Option.none) ∧
      keys res = keys (testPipe.modules.filter
        fun nm => nm.2.can_process
          (kwargsLanguage [("language", PyValue.str "fr-FR")]))) :=
  ⟨rfl, run_all_language_gating testPipe "hello"
    [("language", PyValue.str "fr-FR")] rfl (by decide)⟩

/-- Claim C4: on a pipeline whose initialized flag is false, both
run_module and run_all raise NotInitializedError; no result mapping is
produced and no module process is invoked. -/
theorem not_initialized_guard (p : Pipeline) (name text : String)
    (kwargs : Kwargs) (h : p.initialized = false) :
    (p.run_module name text kwargs).result = Except.error NotInitializedError ∧
    (p.run_module name text kwargs).invoked = [] ∧
    (p.run_all text kwargs).result = Except.error NotInitializedError ∧
    (p.run_all text kwargs).invoked = [] := by
  simp [Pipeline.run_module, Pipeline.run_all, h]

/-- Witness for not_initialized_guard at a registered but never
initialized pipeline. -/
theorem not_initialized_guard_witness :
    uninitPipe.initialized = false ∧
    ((uninitPipe.run_module "a" "hello" []).result =
      Except.error NotInitializedError ∧
    (uninitPipe.run_module "a" "hello" []).invoked = [] ∧
    (uninitPipe.run_all "hello" []).result = Except.error NotInitializedError ∧
    (uninitPipe.run_all "hello" []).invoked = []) :=
  ⟨rfl, not_initialized_guard uninitPipe "a" "hello" [] rfl⟩

/-- Claim C5: on an initialized pipeline, run_module of a registered
module reads the language option (the Python None sentinel en-US default
applies when the option is absent) and, when can_process of that language
is false, returns the skip sentinel None without raising and without
invoking process. -/
theorem run_module_skip_sentinel (p : Pipeline) (name text : String)
    (kwargs : Kwargs) (m : ProcessorModule) (hinit : p.initialized = true)
    (hm : dget p.modules name = some m)
    (hcan : m.can_process (kwargsLanguage kwargs) = false) :
    (p.run_module name text kwargs).result = Except.ok PyValue.none ∧
    (p.run_module name text kwargs).invoked = [] ∧
    (dget kwargs "language" = Option.none →
      kwargsLanguage kwargs = PyValue.str "en-US") := by
  have hguard : ¬ (p.initialized = false) := by simp [hinit]
  refine ⟨?_, ?_, fun hl => ?_⟩
  · simp only [Pipeline.run_module, if_neg hguard, hm, if_pos hcan]
  · simp only [Pipeline.run_module, if_neg hguard, hm, if_pos hcan]
  · rw [kwargsLanguage, hl]
    rfl

/-- Witness for run_module_skip_sentinel: module b only supports fr-FR and
the request carries no language option. -/
theorem run_module_skip_sentinel_witness :
    testPipe.initialized = true ∧
    dget testPipe.modules "b" = some modFr ∧
    ((testPipe.run_module "b" "hello" []).result = Except.ok PyValue.none ∧
    (testPipe.run_module "b" "hello" []).invoked = [] ∧
    (dget ([] : Kwargs) "language" = Option.none →
      kwargsLanguage [] = PyValue.str "en-US")) :=
  ⟨rfl, rfl, run_module_skip_sentinel testPipe "b" "hello" [] modFr rfl rfl rfl⟩

/-- Claim C6: on an initialized pipeline, when a registered language
capable module raises during run_module, the very exception propagates to
the caller; run_module never converts a process failure into an error
marker value. -/
theorem run_module_propagates_failure (p : Pipeline) (name text : String)
    (kwargs : Kwargs) (m : ProcessorModule) (e : PyExc)
    (hinit : p.initialized = true)
    (hm : dget p.modules name = some m)
    (hcan : m.can_process (kwargsLanguage kwargs) = true)
    (herr : m.process text kwargs = Except.error e) :
    (p.run_module name text kwargs).result = Except.error e := by
  have hguard : ¬ (p.initialized = false) := by simp [hinit]
  have hcan2 : ¬ (m.can_process (kwargsLanguage kwargs) = false) := by
    simp [hcan]
  simp only [Pipeline.run_module, if_neg hguard, hm]
  rw [if_neg hcan2]
  exact herr

/-- Witness for run_module_propagates_failure at module x, whose process
raises boom. -/
theorem run_module_propagates_failure_witness :
    testPipe.initialized = true ∧
    dget testPipe.modules "x" = some modBoom ∧
    (testPipe.run_module "x" "hello" []).result =
      Except.error ⟨"ProcessingError", "boom"⟩ :=
  ⟨rfl, rfl, run_module_propagates_failure testPipe "x" "hello" [] modBoom
    ⟨"ProcessingError", "boom"⟩ rfl rfl rfl rfl⟩

/-- Claim C10: run_module and run_all leave the pipeline state (registry,
captured config, initialized flag) unchanged in every branch, whether they
return a result, the skip sentinel, error markers, or raise. -/
theorem run_ops_frame (p : Pipeline) (name text : String) (kwargs : Kwargs) :
    (p.run_module name text kwargs).state = p ∧
    (p.run_all text kwargs).state = p := by
  constructor
  · rw [Pipeline.run_module]
    split
    · rfl
    · split
      · rfl
      · split
        · rfl
        · rfl
  · rw [Pipeline.run_all]
    split
    · rfl
    · rfl

/-- Claim C3 counterexample: a pipeline that completed a successful
startup and then registered a module whose initialize fails; re-running
initialize_all raises the fatal error naming that module, yet the
initialized flag stays true afterwards, refuting the claim that a failing
initialize_all leaves the flag false for every pipeline. -/
theorem init_all_flag_counterexample :
    staleInitPipe.initialized = true ∧
    (staleInitPipe.init_all Option.none).result =
      Except.error (PipelineInitializationError "b") ∧
    (staleInitPipe.init_all Option.none).state.initialized = true :=
  ⟨rfl, rfl, rfl⟩

/-- Claim C3 amended: when the registry is a prefix of modules whose
initialize succeeds followed by a failing module, initialize_all invokes
initialize exactly for that prefix plus the failing module (later modules
are not initialized), raises the fatal RuntimeError naming the failing
module, performs no registry rollback, and leaves the initialized flag
unchanged - hence still false for a pipeline that never completed a
successful startup, but still true when re-initializing an already
initialized pipeline fails. -/
theorem init_all_first_failure (p : Pipeline) (config : Option ConfigMap)
    (pre post : List (String × ProcessorModule)) (name : String)
    (mbad : ProcessorModule)
    (hmods : p.modules = pre ++ (name, mbad) :: post)
    (hpre : ∀ x ∈ pre,
      x.2.init ((dget (config.getD []) x.1).getD []) = Except.ok ())
    (hbad : ∃ e,
      mbad.init ((dget (config.getD []) name).getD []) = Except.error e) :
    (p.init_all config).result =
      Except.error (PipelineInitializationError name) ∧
    (p.init_all config).invoked = keys pre ++ [name] ∧
    (p.init_all config).state.initialized = p.initialized ∧
    (p.init_all config).state.modules = p.modules := by
  have hloop :=
    initLoop_first_failure (config.getD []) pre post name mbad hpre hbad
  rw [Pipeline.init_all]
  simp [hmods, hloop]

/-- Witness for init_all_first_failure: module a initializes, module b
fails, module x comes after b in registry order. -/
theorem init_all_first_failure_witness :
    badInitPipe.modules =
      [("a", modA)] ++ ("b", modBadInit "b") :: [("x", modBoom)] ∧
    ((badInitPipe.init_all Option.none).result =
      Except.error (PipelineInitializationError "b") ∧
    (badInitPipe.init_all Option.none).invoked =
      keys [("a", modA)] ++ ["b"] ∧
    (badInitPipe.init_all Option.none).state.initialized =
      badInitPipe.initialized ∧
    (badInitPipe.init_all Option.none).state.modules =
      badInitPipe.modules) :=
  ⟨rfl, init_all_first_failure badInitPipe Option.none [("a", modA)]
    [("x", modBoom)] "b" (modBadInit "b") rfl
    (by
      intro x hx
      rw [List.mem_singleton] at hx
      subst hx
      rfl)
    ⟨⟨"Exception", "no resource"⟩, rfl⟩⟩

/-- Claim C7 counterexample: the grammar module initialize completes
normally, with the tool left unset, even when the LanguageTool server
connection cannot be established - grammar.py wraps the connection in a
try block whose except clause only logs, so the failure is silently
swallowed instead of raised. -/
theorem grammar_swallows_counterexample :
    grammarInit failingConnect [] =
      ⟨"en-US", "http://localhost:8081", Option.none⟩ := rfl

/-- Claim C7 amended: the completion module initialize raises a
RuntimeError wrapping the missing credential error when the nvidia api key
is absent from both the configuration and the environment, so its startup
failure reaches the pipeline; the grammar module initialize however never
raises: a failing LanguageTool connection is caught and recorded as an
unset tool. -/
theorem init_error_policy (connect : String → String → Except PyExc Nat)
    (gconfig cconfig : Config) (ext : CompletionExternals)
    (hconn : ∀ lang url, ∃ e, connect lang url = Except.error e)
    (hprov : dget cconfig "provider" = Option.none)
    (hkey : dget cconfig "api_key" = Option.none)
    (henv : ext.envApiKey = Option.none)
    (himp : ext.openaiImport = Except.ok ()) :
    (grammarInit connect gconfig).tool = Option.none ∧
    completionInit ext cconfig = Except.error
      ⟨"RuntimeError",
       "Could not initialize text completion: Nvidia API key is required"⟩ := by
  constructor
  · obtain ⟨e, he⟩ :=
      hconn (grammarLanguage gconfig) (grammarServerUrl gconfig)
    rw [grammarInit, he]
  · simp [completionInit, completionBody, completionWrap, hprov, hkey, henv,
      himp, pyTruthy]

/-- Witness for init_error_policy at an unreachable LanguageTool server,
empty configurations and an environment without the api key. -/
theorem init_error_policy_witness :
    (grammarInit failingConnect []).tool = Option.none ∧
    completionInit noKeyExternals [] = Except.error
      ⟨"RuntimeError",
       "Could not initialize text completion: Nvidia API key is required"⟩ :=
  init_error_policy failingConnect [] [] noKeyExternals
    (fun _ _ =>
      ⟨⟨"ConnectionError", "LanguageTool server unreachable"⟩, rfl⟩)
    rfl rfl rfl rfl

/-- Claim C8: registering two modules carrying the same name leaves the
name bound to exactly the second instance, emits a warning level event on
the second register, raises nothing (register is total), and keeps every
name bound at most once. -/
theorem register_overwrite_warning (p : Pipeline) (m1 m2 : ProcessorModule)
    (hname : m2.name = m1.name) (hnd : (keys p.modules).Nodup) :
    dget (((p.register m1).1.register m2).1).modules m1.name = some m2 ∧
    (∃ ev ∈ ((p.register m1).1.register m2).2,
      ev.level = LogLevel.warning) ∧
    (keys (((p.register m1).1.register m2).1).modules).Nodup := by
  have hsome2 : (dget (dset p.modules m1.name m1) m2.name).isSome = true := by
    rw [hname, dget_dset_self]
    rfl
  refine ⟨?_, ?_, ?_⟩
  · show dget (dset (dset p.modules m1.name m1) m2.name m2) m1.name = some m2
    rw [hname, dget_dset_self]
  · have hev : ((p.register m1).1.register m2).2 =
        [⟨LogLevel.warning,
          "Module " ++ m2.name ++ " is already registered. Overwriting."⟩,
         ⟨LogLevel.info, "Registered module: " ++ m2.name⟩] := by
      simp only [Pipeline.register]
      rw [if_pos hsome2]
      rfl
    refine ⟨⟨LogLevel.warning,
      "Module " ++ m2.name ++ " is already registered. Overwriting."⟩,
      ?_, rfl⟩
    rw [hev]
    exact List.mem_cons_self _ _
  · show (keys (dset (dset p.modules m1.name m1) m2.name m2)).Nodup
    exact nodup_keys_dset _ _ _ (nodup_keys_dset _ _ _ hnd)

/-- Witness for register_overwrite_warning: two modules named a registered
on a fresh pipeline. -/
theorem register_overwrite_warning_witness :
    modA2.name = modA.name ∧
    (dget (((Pipeline.empty.register modA).1.register modA2).1).modules
        modA.name = some modA2 ∧
    (∃ ev ∈ ((Pipeline.empty.register modA).1.register modA2).2,
      ev.level = LogLevel.warning) ∧
    (keys (((Pipeline.empty.register modA).1.register modA2).1).modules).Nodup) :=
  ⟨rfl,
    register_overwrite_warning Pipeline.empty modA modA2 rfl List.nodup_nil⟩

/-- Claim C9: unregister never raises (it is total); with the unique name
invariant, it returns true and removes exactly the named binding when the
name is registered, and returns false leaving the pipeline untouched when
it is not. -/
theorem unregister_total_spec (p : Pipeline) (n : String)
    (hnd : (keys p.modules).Nodup) :
    ((dget p.modules n).isSome = true →
      (p.unregister n).2 = true ∧
      dget (p.unregister n).1.modules n = Option.none ∧
      (∀ k, k ≠ n →
        dget (p.unregister n).1.modules k = dget p.modules k)) ∧
    ((dget p.modules n).isSome = false →
      (p.unregister n).2 = false ∧ (p.unregister n).1 = p) := by
  constructor
  · intro hsome
    rw [Pipeline.unregister, if_pos hsome]
    exact ⟨rfl, dget_ddel_self p.modules n hnd,
      fun k hk => dget_ddel_ne p.modules n k hk⟩
  · intro hnone
    rw [Pipeline.unregister, if_neg (by simp [hnone])]
    exact ⟨rfl, rfl⟩

/-- Witness for unregister_total_spec at the test pipeline and the
registered name a; the absent branch is vacuous there, the present branch
is exercised. -/
theorem unregister_total_spec_witness :
    (keys testPipe.modules).Nodup ∧
    (((dget testPipe.modules "a").isSome = true →
      (testPipe.unregister "a").2 = true ∧
      dget (testPipe.unregister "a").1.modules "a" = Option.none ∧
      (∀ k, k ≠ "a" →
        dget (testPipe.unregister "a").1.modules k =
          dget testPipe.modules k)) ∧
    ((dget testPipe.modules "a").isSome = false →
      (testPipe.unregister "a").2 = false ∧
      (testPipe.unregister "a").1 = testPipe)) :=
  ⟨by decide, unregister_total_spec testPipe "a" (by decide)⟩
